import Mathlib

/-!
Verification development for the gnome-extension-dmenu repository.

The repository contains two variants of the same GNOME Shell extension:
`src/extension.js` (single-select, result list capped at `MAX_RESULTS = 50`)
and a second source file (multi-select, uncapped result list with a virtual
scroll window of `items_per_page = 20`).  Both variants share the same
tokenizing substring filter.  This file gives a shallow embedding of the
filter engine and of the selection state machine of the multi-select
variant, plus the capped filter of the single-select variant, and proves
the specification claims about them.

JavaScript strings are modelled as Lean `String`s; the JS string operations
`trim`, `toLowerCase`, `split(/\s+/)` and `includes` are modelled at the
character-list level (ASCII case folding, `Char.isWhitespace` as the
whitespace class), by structurally recursive functions so that every
definition evaluates inside the kernel.
-/

namespace Dmenu

/-- Model of `String.prototype.toLowerCase` (ASCII case folding). -/
def lowerChars (cs : List Char) : List Char :=
  cs.map Char.toLower

/-- Model of `String.prototype.trim`: drop whitespace from both ends. -/
def trimChars (cs : List Char) : List Char :=
  ((cs.dropWhile Char.isWhitespace).reverse.dropWhile Char.isWhitespace).reverse

/-- Model of `String.prototype.split` with a single-character separator
class: splitting at every separator character, producing (possibly empty)
segments, like `split(/\s/)`; composed with the empty-segment filter below
this coincides with the `split(/\s+/)` used by the source. -/
def splitChars (p : Char → Bool) : List Char → List (List Char)
  | [] => [[]]
  | c :: cs =>
    if p c then [] :: splitChars p cs
    else
      match splitChars p cs with
      | [] => [[c]]
      | seg :: rest => (c :: seg) :: rest

/-- Model of `String.prototype.includes`: `charsContain needle hay` is true
iff `needle` occurs contiguously inside `hay`. -/
def charsContain (needle : List Char) : List Char → Bool
  | [] => needle.isEmpty
  | c :: tl => needle.isPrefixOf (c :: tl) || charsContain needle tl

/-- `_updateResults` first computes
`filter = entry.get_text().trim().toLowerCase()` and then
`filterTokens = filter.split(/\s+/).filter(token => token.length > 0)`. -/
def tokenize (q : String) : List String :=
  ((splitChars Char.isWhitespace (lowerChars (trimChars q.data))).map
    (fun cs => String.mk cs)).filter (fun t => 0 < t.length)

/-- The per-line match test of `_updateResults`:
`filterTokens.every(token => itemLower.includes(token))` where
`itemLower = item.toLowerCase()`. -/
def lineMatches (tokens : List String) (item : String) : Bool :=
  tokens.all (fun t => charsContain t.data (lowerChars item.data))

/-- The filtering loop of `_updateResults` in the multi-select variant
(no result cap): walk the candidate list in order, keeping a line when
the token list is empty or every token occurs in the lowered line. -/
def visLoop (tokens : List String) : List String → List String
  | [] => []
  | item :: rest =>
    if tokens.isEmpty then item :: visLoop tokens rest
    else if lineMatches tokens item then item :: visLoop tokens rest
    else visLoop tokens rest

/-- MatchList of the multi-select variant: `_visible_items` as computed by
`_updateResults` from the candidate set and the query. -/
def visibleItems (items : List String) (q : String) : List String :=
  visLoop (tokenize q) items

/-- The filtering loop of `_updateResults` in `src/extension.js`, which
stops as soon as `MAX_RESULTS` lines have been collected
(`if (this._visible_items.length >= MAX_RESULTS) break;`).  The first
argument of the recursion is the remaining capacity. -/
def visLoopCapped (tokens : List String) : Nat → List String → List String
  | _, [] => []
  | 0, _ :: _ => []
  | Nat.succ cap, item :: rest =>
    if tokens.isEmpty then item :: visLoopCapped tokens cap rest
    else if lineMatches tokens item then item :: visLoopCapped tokens cap rest
    else visLoopCapped tokens (Nat.succ cap) rest

/-- `MAX_RESULTS` in `src/extension.js`. -/
def maxResults : Nat := 50

/-- MatchList of the `src/extension.js` variant (capped at 50 lines). -/
def visibleItemsCapped (items : List String) (q : String) : List String :=
  visLoopCapped (tokenize q) maxResults items

theorem visLoop_eq_filter (tokens : List String) (l : List String) :
    visLoop tokens l = l.filter (fun item => lineMatches tokens item) := by
  induction l with
  | nil => rfl
  | cons a t ih =>
    by_cases htok : tokens.isEmpty
    · have : tokens = [] := List.isEmpty_iff.mp htok
      subst this
      simp [visLoop, lineMatches, List.filter_cons, ih]
    · by_cases hm : lineMatches tokens a
      · simp [visLoop, htok, hm, List.filter_cons, ih]
      · simp [visLoop, htok, hm, List.filter_cons, ih]

theorem visLoopCapped_eq_take (tokens : List String) (cap : Nat) (l : List String) :
    visLoopCapped tokens cap l =
      (l.filter (fun item => lineMatches tokens item)).take cap := by
  induction l generalizing cap with
  | nil => cases cap <;> rfl
  | cons a t ih =>
    cases cap with
    | zero =>
      simp [visLoopCapped]
    | succ n =>
      by_cases htok : tokens.isEmpty
      · have : tokens = [] := List.isEmpty_iff.mp htok
        subst this
        simp [visLoopCapped, lineMatches, List.filter_cons, ih]
      · by_cases hm : lineMatches tokens a
        · simp [visLoopCapped, htok, hm, List.filter_cons, ih]
        · simp [visLoopCapped, htok, hm, List.filter_cons, ih]

example : tokenize "an a" = ["an", "a"] := by decide
example : visibleItems ["apple", "banana", "grape"] "an a" = ["banana"] := by decide
example : visibleItems ["apple", "banana", "grape"] "" = ["apple", "banana", "grape"] := by decide
example : visibleItems ["Apple", "banana"] "APP" = ["Apple"] := by decide

/-! ## The selection state machine (multi-select variant)

The `DmenuUI` object of the multi-select variant.  The JS `Set` used for
`_selected_items` preserves insertion order and `Array.from` reads it back
in that order, so it is modelled as a duplicate-free list to which
`toggleItem` appends on insertion.  The pending debounce timeout
(`_filter_timeout`) is a Boolean plus an explicit `timerFire` command: the
GLib timer callback only runs while the timeout is pending. -/

/-- The mutable state of `DmenuUI` (multi-select variant), together with
the `active` flag recording whether `show` has attached the actor to
`Main.uiGroup` (events are only delivered while it is attached). -/
@[ext]
structure UIState where
  items : List String
  visible : List String
  cursor : Nat
  selected : List String
  pendingFilter : Bool
  scrollStart : Int
  query : String
  active : Bool
deriving DecidableEq

/-- `this._items_per_page = 20`. -/
def itemsPerPage : Int := 20

/-- `const buffer = Math.floor(this._items_per_page / 4)`. -/
def scrollBuffer : Int := itemsPerPage / 4

theorem scrollBuffer_eq : scrollBuffer = 5 := rfl

/-- `_updateScrollWindow` of the multi-select variant as a function of the
match-list length, the cursor index and the current scroll start. -/
def updateScrollWindow (len idx start : Int) : Int :=
  if len = 0 then 0
  else
    max 0
      (if idx < start + scrollBuffer then max 0 (idx - scrollBuffer)
       else if start + itemsPerPage - scrollBuffer ≤ idx then
         min (len - itemsPerPage) (idx - itemsPerPage + scrollBuffer + 1)
       else start)

/-- `_updateResults`: recompute `_visible_items` from `_items` and the
entry text, then call `_updateScrollWindow` (rendering is presentation
only and is not part of the state). -/
def updateResults (s : UIState) : UIState :=
  { s with
    visible := visLoop (tokenize s.query) s.items,
    scrollStart :=
      updateScrollWindow ((visLoop (tokenize s.query) s.items).length : Int)
        (s.cursor : Int) s.scrollStart }

/-- `hide`: remove any pending filter timeout and detach the actor. -/
def hideUI (s : UIState) : UIState :=
  { s with pendingFilter := false, active := false }

/-- The debounce callback of `_onTextChanged`: if a timeout is pending,
set `_selected_index = 0`, run `_updateResults` and clear the timeout. -/
def flushPending (s : UIState) : UIState :=
  if s.pendingFilter then updateResults { s with cursor := 0, pendingFilter := false }
  else s

/-- Toggling membership in `_selected_items` (a JS `Set`, keyed by line
value, insertion-ordered). -/
def toggleItem (sel : List String) (item : String) : List String :=
  if item ∈ sel then sel.erase item else sel ++ [item]

/-- Move the cursor and re-run `_updateScrollWindow` (the common tail of
every navigation branch of `_onKeyPress`). -/
def navTo (s : UIState) (newCursor : Nat) : UIState :=
  { s with
    cursor := newCursor,
    scrollStart :=
      updateScrollWindow ((s.visible.length : Nat) : Int) (newCursor : Int) s.scrollStart }

/-- The Tab / Ctrl+Space / Shift+Return branch of `_onKeyPress`: toggle the
line under the cursor in `_selected_items`, optionally advance, then
update the scroll window. -/
def toggleAt (s : UIState) (advance : Bool) : UIState :=
  if 0 < s.visible.length ∧ s.cursor < s.visible.length then
    navTo { s with selected := toggleItem s.selected (s.visible.getD s.cursor "") }
      (if advance then min (s.visible.length - 1) (s.cursor + 1) else s.cursor)
  else s

/-- Outbound DBus signals of `DmenuService`. -/
inductive Emission where
  | itemSelected (items : List String)
  | cancelled
deriving DecidableEq

/-- `_onActivate`: commit.  Emits the toggled set if non-empty, else the
highlighted line if any, else does nothing. -/
def onActivate (s : UIState) : UIState × List Emission :=
  let itemsToReturn : List String :=
    if 0 < s.selected.length then s.selected
    else if 0 < s.visible.length ∧ s.cursor < s.visible.length then
      [s.visible.getD s.cursor ""]
    else []
  if 0 < itemsToReturn.length then (hideUI s, [Emission.itemSelected itemsToReturn])
  else (s, [])

/-- The input events of the engine: the key branches of `_onKeyPress`, the
`activate` signal, the `text-changed` signal carrying the new entry text,
and the debounce timer firing. -/
inductive Cmd where
  | escape
  | moveUp
  | moveDown
  | pageUp
  | pageDown
  | moveHome
  | moveEnd
  | tabKey
  | ctrlSpace
  | shiftEnter
  | enter
  | edit (q : String)
  | timerFire
deriving DecidableEq

/-- One event step while the UI is attached: `_onKeyPress` /
`_onTextChanged` / `_onActivate` / the debounce callback. -/
def stepActive (s : UIState) : Cmd → UIState × List Emission
  | Cmd.escape => (hideUI s, [Emission.cancelled])
  | Cmd.moveUp =>
    (if 0 < s.visible.length then navTo s (s.cursor - 1) else s, [])
  | Cmd.moveDown =>
    (if 0 < s.visible.length then navTo s (min (s.visible.length - 1) (s.cursor + 1)) else s, [])
  | Cmd.pageUp =>
    (if 0 < s.visible.length then navTo s (s.cursor - 20) else s, [])
  | Cmd.pageDown =>
    (if 0 < s.visible.length then navTo s (min (s.visible.length - 1) (s.cursor + 20)) else s, [])
  | Cmd.moveHome =>
    (if 0 < s.visible.length then navTo s 0 else s, [])
  | Cmd.moveEnd =>
    (if 0 < s.visible.length then navTo s (s.visible.length - 1) else s, [])
  | Cmd.tabKey => (toggleAt s true, [])
  | Cmd.ctrlSpace => (toggleAt s false, [])
  | Cmd.shiftEnter => (toggleAt s true, [])
  | Cmd.enter => onActivate s
  | Cmd.edit q => ({ s with query := q, pendingFilter := true }, [])
  | Cmd.timerFire => (flushPending s, [])

/-- Event delivery: once the actor is removed from `Main.uiGroup` and its
timeout source removed, no handler can run, so steps on an inactive state
are identities. -/
def step (s : UIState) (c : Cmd) : UIState × List Emission :=
  if s.active then stepActive s c else (s, [])

/-- `DmenuUI.show(items, prompt)`: replace the candidate set, clear the
multi-select set, clear the entry text (which fires `text-changed`, and
hence restarts the debounce timer, exactly when the text actually
changes), reset the cursor, attach the actor and run `_updateResults`. -/
def showUI (items : List String) (s : UIState) : UIState :=
  updateResults
    { s with
      items := items,
      selected := [],
      pendingFilter := s.pendingFilter || s.query != "",
      query := "",
      cursor := 0,
      active := true }

/-- `DmenuExtension.show`: `this._ui.show(items, prompt || '>')` — the
prompt argument defaulted when empty or absent. -/
def promptArg (p : String) : String :=
  if p = "" then ">" else p

/-- `DmenuExtension.disable`: unexport the service and hide the UI.  No
signal is emitted anywhere on this path. -/
def disable (s : UIState) : UIState × List Emission :=
  (hideUI s, [])

/-- The state `DmenuUI` starts in after its constructor. -/
def initState : UIState :=
  { items := [], visible := [], cursor := 0, selected := [],
    pendingFilter := false, scrollStart := 0, query := "", active := false }

/-! ## The un-debounced reference semantics

For the debounce-transparency claim: the same machine, except that every
`text-changed` event runs the recomputation immediately (and the timer
never has anything to do). -/

/-- One step of the reference semantics with immediate recomputation. -/
def stepImm (s : UIState) (c : Cmd) : UIState × List Emission :=
  match c with
  | Cmd.edit q =>
    if s.active then (updateResults { s with query := q, cursor := 0 }, []) else (s, [])
  | Cmd.timerFire => (s, [])
  | c => step s c

/-- Run a sequence of events, collecting the emitted signals. -/
def runSeq (f : UIState → Cmd → UIState × List Emission) :
    UIState → List Cmd → List Emission
  | _, [] => []
  | s, c :: cs => (f s c).2 ++ runSeq f (f s c).1 cs

/-- The state after a sequence of events. -/
def execSeq (f : UIState → Cmd → UIState × List Emission)
    (s : UIState) (cs : List Cmd) : UIState :=
  cs.foldl (fun t c => (f t c).1) s

/-! ## Basic lemmas about the state operations -/

theorem updateResults_items (s : UIState) : (updateResults s).items = s.items := rfl

theorem updateResults_selected (s : UIState) : (updateResults s).selected = s.selected := rfl

theorem updateResults_cursor (s : UIState) : (updateResults s).cursor = s.cursor := rfl

theorem updateResults_query (s : UIState) : (updateResults s).query = s.query := rfl

theorem updateResults_active (s : UIState) : (updateResults s).active = s.active := rfl

theorem updateResults_pendingFilter (s : UIState) :
    (updateResults s).pendingFilter = s.pendingFilter := rfl

theorem flushPending_active (s : UIState) : (flushPending s).active = s.active := by
  unfold flushPending
  split <;> rfl

theorem flushPending_items (s : UIState) : (flushPending s).items = s.items := by
  unfold flushPending
  split <;> rfl

theorem flushPending_selected (s : UIState) : (flushPending s).selected = s.selected := by
  unfold flushPending
  split <;> rfl

theorem flushPending_pendingFilter (s : UIState) :
    (flushPending s).pendingFilter = false := by
  unfold flushPending
  split
  · rfl
  · next h => simpa using h

theorem flushPending_of_not_pending (s : UIState) (h : s.pendingFilter = false) :
    flushPending s = s := by
  unfold flushPending
  simp [h]

/-- With the cursor at 0, `_updateScrollWindow` always resets the scroll
start to 0, whatever the list length and the previous start were. -/
theorem updateScrollWindow_zero (len start : Int) :
    updateScrollWindow len 0 start = 0 := by
  unfold updateScrollWindow
  rw [scrollBuffer_eq]
  unfold itemsPerPage
  split
  · rfl
  · split
    · omega
    · split <;> omega

/-! ## C1: soundness and completeness of the token filter -/

/-- A candidate set with 51 lines that all match the empty query. -/
def candidates51 : List String := List.replicate 50 "b" ++ ["a"]

/-- C1 (counterexample): in the `src/extension.js` variant the MatchList is
capped at `MAX_RESULTS = 50`, so with 51 candidates and an empty query the
last candidate matches every token (there are none) yet does not appear in
the MatchList, violating the completeness half of the claim. -/
theorem c1_counterexample :
    tokenize "" = [] ∧ "a" ∈ candidates51 ∧
    lineMatches (tokenize "") "a" = true ∧
    "a" ∉ visibleItemsCapped candidates51 "" := by decide

/-- C1 (amended): the uncapped variant computes exactly the lines
containing every token, in original order (soundness, completeness, order
preservation, and the empty-token case); the `src/extension.js` variant
computes the first `MAX_RESULTS = 50` such lines, so it is sound and
order-preserving but complete only up to the cap. -/
theorem c1_matchFilter (items : List String) (q : String) :
    (∀ l ∈ visibleItems items q, lineMatches (tokenize q) l = true)
    ∧ (∀ l ∈ items, lineMatches (tokenize q) l = true → l ∈ visibleItems items q)
    ∧ (visibleItems items q).Sublist items
    ∧ (tokenize q = [] → visibleItems items q = items)
    ∧ visibleItemsCapped items q
        = (items.filter (fun l => lineMatches (tokenize q) l)).take maxResults
    ∧ (∀ l ∈ visibleItemsCapped items q, lineMatches (tokenize q) l = true)
    ∧ (visibleItemsCapped items q).Sublist items := by
  unfold visibleItems visibleItemsCapped
  rw [visLoop_eq_filter, visLoopCapped_eq_take]
  refine ⟨?_, ?_, List.filter_sublist _, ?_, rfl, ?_, ?_⟩
  · intro l hl
    exact (List.mem_filter.mp hl).2
  · intro l hl hm
    exact List.mem_filter.mpr ⟨hl, hm⟩
  · intro h
    rw [h]
    refine List.filter_eq_self.mpr ?_
    intro a _
    rfl
  · intro l hl
    exact (List.mem_filter.mp (List.take_subset _ _ hl)).2
  · exact (List.take_sublist _ _).trans (List.filter_sublist _)

/-- C1 (witness): the spec's own scenario, `"banana"` matches both tokens
of `"an a"` and appears in the MatchList. -/
theorem c1_matchFilter_witness :
    lineMatches (tokenize "an a") "banana" = true ∧
    "banana" ∈ visibleItems ["apple", "banana", "grape"] "an a" :=
  ⟨by decide,
    (c1_matchFilter ["apple", "banana", "grape"] "an a").2.1 "banana"
      (by decide) (by decide)⟩

/-! ## C2: commit semantics -/

theorem step_enter_eq (s : UIState) (ha : s.active = true) :
    step s Cmd.enter = onActivate s := by
  simp [step, ha, stepActive]

theorem onActivate_of_selected (s : UIState) (hsel : s.selected ≠ []) :
    onActivate s = (hideUI s, [Emission.itemSelected s.selected]) := by
  have h0 : 0 < s.selected.length := List.length_pos.mpr hsel
  simp [onActivate, h0]

theorem onActivate_of_highlight (s : UIState) (hsel : s.selected = [])
    (hcur : s.cursor < s.visible.length) :
    onActivate s = (hideUI s, [Emission.itemSelected [s.visible.getD s.cursor ""]]) := by
  have hv0 : 0 < s.visible.length := Nat.lt_of_le_of_lt (Nat.zero_le _) hcur
  simp [onActivate, hsel, hv0, hcur]

theorem onActivate_of_empty (s : UIState) (hsel : s.selected = [])
    (hvis : s.visible = []) :
    onActivate s = (s, []) := by
  simp [onActivate, hsel, hvis]

/-- C2: while Active, Commit emits the toggled set (in toggle order,
independently of the cursor) when non-empty; otherwise the highlighted
match if any; otherwise it is a no-op that stays Active.  Every emitted
payload is non-empty and every emission deactivates the invocation. -/
theorem c2_commit (s : UIState) (ha : s.active = true)
    (hc : s.visible ≠ [] → s.cursor < s.visible.length) :
    (s.selected ≠ [] →
      step s Cmd.enter = (hideUI s, [Emission.itemSelected s.selected])
      ∧ ∀ c : Nat, (step { s with cursor := c } Cmd.enter).2
          = [Emission.itemSelected s.selected])
    ∧ (s.selected = [] → s.visible ≠ [] →
      step s Cmd.enter = (hideUI s, [Emission.itemSelected [s.visible.getD s.cursor ""]]))
    ∧ (s.selected = [] → s.visible = [] →
      step s Cmd.enter = (s, []) ∧ ((step s Cmd.enter).1).active = true)
    ∧ (∀ pay, Emission.itemSelected pay ∈ (step s Cmd.enter).2 → pay ≠ [])
    ∧ ((step s Cmd.enter).2 ≠ [] → ((step s Cmd.enter).1).active = false) := by
  rw [step_enter_eq s ha]
  refine ⟨?_, ?_, ?_, ?_, ?_⟩
  · intro hsel
    refine ⟨onActivate_of_selected s hsel, ?_⟩
    intro c
    have : step { s with cursor := c } Cmd.enter = onActivate { s with cursor := c } :=
      step_enter_eq _ (by simpa using ha)
    rw [this, onActivate_of_selected _ (by simpa using hsel)]
  · intro hsel hvis
    exact onActivate_of_highlight s hsel (hc hvis)
  · intro hsel hvis
    rw [onActivate_of_empty s hsel hvis]
    exact ⟨rfl, ha⟩
  · intro pay hpay
    by_cases hsel : s.selected = []
    · by_cases hvis : s.visible = []
      · rw [onActivate_of_empty s hsel hvis] at hpay
        simp at hpay
      · rw [onActivate_of_highlight s hsel (hc hvis)] at hpay
        simp at hpay
        simp [hpay]
    · rw [onActivate_of_selected s hsel] at hpay
      simp at hpay
      simp [hpay, hsel]
  · intro hne
    by_cases hsel : s.selected = []
    · by_cases hvis : s.visible = []
      · rw [onActivate_of_empty s hsel hvis] at hne ⊢
        simp at hne
      · rw [onActivate_of_highlight s hsel (hc hvis)]
        rfl
    · rw [onActivate_of_selected s hsel]
      rfl

/-- The state used to witness C2: multi-select with two toggled items. -/
def c2State : UIState :=
  { items := ["x", "y", "z"], visible := ["x", "y", "z"], cursor := 2,
    selected := ["x", "y"], pendingFilter := false, scrollStart := 0,
    query := "", active := true }

/-- C2 (witness): committing the state with SelectionSet = ["x", "y"] and
the cursor on "z" emits exactly the toggled items and goes Idle. -/
theorem c2_commit_witness :
    step c2State Cmd.enter = (hideUI c2State, [Emission.itemSelected c2State.selected]) :=
  ((c2_commit c2State rfl (by intro h; decide)).1 (by decide)).1

/-! ## C3: MoveUp / MoveDown keep the cursor in range -/

theorem nav_step (s : UIState) (ha : s.active = true) (hv : s.visible ≠ [])
    (hcur : s.cursor < s.visible.length) (c : Cmd)
    (hc : c = Cmd.moveUp ∨ c = Cmd.moveDown) :
    ((step s c).1).visible = s.visible ∧ ((step s c).1).active = true
    ∧ ((step s c).1).cursor < s.visible.length := by
  have h0 : 0 < s.visible.length := List.length_pos.mpr hv
  rcases hc with h | h
  · subst h
    simp [step, ha, stepActive, h0, navTo]
    omega
  · subst h
    simp [step, ha, stepActive, h0, navTo]

theorem c3_aux (cs : List Cmd) : ∀ s : UIState, s.active = true → s.visible ≠ [] →
    s.cursor < s.visible.length → (∀ c ∈ cs, c = Cmd.moveUp ∨ c = Cmd.moveDown) →
    (execSeq step s cs).visible = s.visible ∧ (execSeq step s cs).active = true
    ∧ (execSeq step s cs).cursor < s.visible.length := by
  induction cs with
  | nil =>
    intro s ha hv hcur _
    exact ⟨rfl, ha, hcur⟩
  | cons c cs ih =>
    intro s ha hv hcur hcs
    have h1 := nav_step s ha hv hcur c (hcs c (by simp))
    have hv1 : ((step s c).1).visible ≠ [] := by rw [h1.1]; exact hv
    have h2 := ih ((step s c).1) h1.2.1 hv1 (by rw [h1.1]; exact h1.2.2)
      (fun d hd => hcs d (by simp [hd]))
    have hexec : execSeq step s (c :: cs) = execSeq step ((step s c).1) cs := by
      simp [execSeq]
    rw [hexec]
    exact ⟨h2.1.trans h1.1, h2.2.1, by rw [← h1.1]; exact h2.2.2⟩

/-- C3: over any sequence of MoveUp/MoveDown events on a non-empty
MatchList the cursor stays within `[0, len − 1]` (it is a `Nat`, so the
lower bound is inherent), the MatchList is untouched, MoveUp at 0 is a
no-op and MoveDown at the last index is a no-op. -/
theorem c3_cursorBounds (s : UIState) (ha : s.active = true) (hv : s.visible ≠ [])
    (hcur : s.cursor < s.visible.length) (cs : List Cmd)
    (hcs : ∀ c ∈ cs, c = Cmd.moveUp ∨ c = Cmd.moveDown) :
    (execSeq step s cs).cursor < s.visible.length
    ∧ (execSeq step s cs).visible = s.visible
    ∧ (s.cursor = 0 → ((step s Cmd.moveUp).1).cursor = 0)
    ∧ (s.cursor = s.visible.length - 1 →
        ((step s Cmd.moveDown).1).cursor = s.visible.length - 1) := by
  have h0 : 0 < s.visible.length := List.length_pos.mpr hv
  have haux := c3_aux cs s ha hv hcur hcs
  refine ⟨haux.2.2, haux.1, ?_, ?_⟩
  · intro hz
    simp [step, ha, stepActive, h0, navTo, hz]
  · intro hlast
    simp [step, ha, stepActive, h0, navTo, hlast]

/-- The state used to witness C3. -/
def c3State : UIState :=
  { items := ["x", "y", "z"], visible := ["x", "y", "z"], cursor := 1,
    selected := [], pendingFilter := false, scrollStart := 0,
    query := "", active := true }

/-- C3 (witness): two MoveDowns followed by a MoveUp from cursor 1 keep the
cursor inside the three-element MatchList. -/
theorem c3_cursorBounds_witness :
    (execSeq step c3State [Cmd.moveDown, Cmd.moveDown, Cmd.moveUp]).cursor
      < c3State.visible.length :=
  (c3_cursorBounds c3State rfl (by decide) (by decide)
    [Cmd.moveDown, Cmd.moveDown, Cmd.moveUp] (by decide)).1

/-! ## C5: QueryChanged resets the cursor and recomputes from scratch -/

/-- C5: after a `text-changed` event carrying `q` and the resulting
debounced recomputation, the cursor is 0 and the MatchList is
`visLoop (tokenize q) items` — a function of the candidate set and the
new query alone, with no dependency on the previous query, MatchList or
cursor. -/
theorem c5_queryChanged (s : UIState) (ha : s.active = true) (q : String) :
    ((step (step s (Cmd.edit q)).1 Cmd.timerFire).1).cursor = 0
    ∧ ((step (step s (Cmd.edit q)).1 Cmd.timerFire).1).visible
        = visLoop (tokenize q) s.items
    ∧ ((step (step s (Cmd.edit q)).1 Cmd.timerFire).1).query = q := by
  have h1 : (step s (Cmd.edit q)).1 = { s with query := q, pendingFilter := true } := by
    simp [step, ha, stepActive]
  rw [h1]
  have ha2 : ({ s with query := q, pendingFilter := true } : UIState).active = true := ha
  simp [step, ha, ha2, stepActive, flushPending, updateResults]

/-- The state used to witness C5: a stale cursor and MatchList. -/
def c5State : UIState :=
  { items := ["apple", "banana", "grape"], visible := ["apple", "banana", "grape"],
    cursor := 2, selected := [], pendingFilter := false, scrollStart := 0,
    query := "", active := true }

/-- C5 (witness): editing the query to "an" and letting the debounce fire
resets the cursor to 0 and recomputes the MatchList from the items and
"an" alone. -/
theorem c5_queryChanged_witness :
    ((step (step c5State (Cmd.edit "an")).1 Cmd.timerFire).1).cursor = 0
    ∧ ((step (step c5State (Cmd.edit "an")).1 Cmd.timerFire).1).visible
        = visLoop (tokenize "an") c5State.items :=
  ⟨(c5_queryChanged c5State rfl "an").1, (c5_queryChanged c5State rfl "an").2.1⟩

/-! ## C6: Cancel and teardown -/

theorem step_inactive (t : UIState) (hi : t.active = false) (c : Cmd) :
    step t c = (t, []) := by
  simp [step, hi]

/-- C6: Escape while Active emits exactly one `Cancelled` and no
`ItemSelected`, deactivates the invocation and releases the pending
debounce timer; and once the UI is torn down (inactive) no event can emit
any further notification. -/
theorem c6_cancel (s : UIState) (ha : s.active = true) :
    (step s Cmd.escape).2 = [Emission.cancelled]
    ∧ (∀ pay, Emission.itemSelected pay ∉ (step s Cmd.escape).2)
    ∧ ((step s Cmd.escape).1).active = false
    ∧ ((step s Cmd.escape).1).pendingFilter = false
    ∧ (∀ t : UIState, (hideUI t).pendingFilter = false ∧ (hideUI t).active = false)
    ∧ (∀ t : UIState, t.active = false → ∀ c, step t c = (t, [])) := by
  have h1 : step s Cmd.escape = (hideUI s, [Emission.cancelled]) := by
    simp [step, ha, stepActive]
  rw [h1]
  refine ⟨rfl, ?_, rfl, rfl, fun t => ⟨rfl, rfl⟩, fun t ht c => step_inactive t ht c⟩
  intro pay hpay
  simp at hpay

/-- The state used to witness C6: Active with a pending debounce timer. -/
def c6State : UIState :=
  { items := ["x"], visible := ["x"], cursor := 0, selected := [],
    pendingFilter := true, scrollStart := 0, query := "x", active := true }

/-- C6 (witness): Escape on an Active state with a pending debounce emits
exactly one `Cancelled` and clears the timer. -/
theorem c6_cancel_witness :
    (step c6State Cmd.escape).2 = [Emission.cancelled]
    ∧ ((step c6State Cmd.escape).1).pendingFilter = false :=
  ⟨(c6_cancel c6State rfl).1, (c6_cancel c6State rfl).2.2.2.1⟩

/-! ## C7: re-Show fully resets the per-invocation state -/

/-- C7: a `Show` call — including one that arrives while a previous
invocation is still Active — yields a state determined by the new items
alone: candidate set replaced, query cleared, cursor 0, selection empty,
MatchList recomputed from the new items, scroll window reset to 0, UI
attached.  A debounce timer inherited from the interrupted invocation can
only fire into the very same observable state (so nothing stale leaks),
and an empty or absent prompt argument is replaced by ">". -/
theorem c7_reshow (items : List String) (s : UIState) :
    (showUI items s).items = items
    ∧ (showUI items s).query = ""
    ∧ (showUI items s).cursor = 0
    ∧ (showUI items s).selected = []
    ∧ (showUI items s).visible = visLoop (tokenize "") items
    ∧ (showUI items s).scrollStart = 0
    ∧ (showUI items s).active = true
    ∧ (step (showUI items s) Cmd.timerFire).1
        = { showUI items s with pendingFilter := false }
    ∧ promptArg "" = ">" := by
  have hscroll : (showUI items s).scrollStart = 0 := by
    simp [showUI, updateResults, updateScrollWindow_zero]
  refine ⟨rfl, rfl, rfl, rfl, rfl, hscroll, rfl, ?_, rfl⟩
  have ha : (showUI items s).active = true := rfl
  rw [show (step (showUI items s) Cmd.timerFire) = (flushPending (showUI items s), []) from
    by simp [step, ha, stepActive]]
  unfold flushPending
  split
  · unfold updateResults
    apply UIState.ext <;>
      simp [showUI, updateResults, updateScrollWindow_zero]
  · next h =>
    have hp : (showUI items s).pendingFilter = false := by simpa using h
    cases hs : showUI items s
    simp only [hs] at hp
    simp [hp]

/-! ## C9: disable while Active -/

/-- An Active invocation with a caller waiting and a pending debounce. -/
def c9State : UIState :=
  { items := ["x", "y"], visible := ["x", "y"], cursor := 0, selected := [],
    pendingFilter := true, scrollStart := 0, query := "", active := true }

/-- C9 (counterexample): `DmenuExtension.disable` unexports the service and
hides the UI but emits nothing, so disabling while an invocation is Active
produces no `Cancelled` notification for the waiting caller, contrary to
the claim. -/
theorem c9_counterexample :
    c9State.active = true ∧ (disable c9State).2 = []
    ∧ Emission.cancelled ∉ (disable c9State).2 := by decide

/-- C9 (amended): on disable the presentation surface is detached and any
pending debounce timer is released, but no notification of either kind is
emitted — a caller waiting on the bus is never told the invocation died. -/
theorem c9_disable (s : UIState) :
    ((disable s).1).active = false
    ∧ ((disable s).1).pendingFilter = false
    ∧ (disable s).2 = [] :=
  ⟨rfl, rfl, rfl⟩

/-! ## C10: the multi-select set is keyed by line value -/

theorem toggleItem_nodup (sel : List String) (x : String) (h : sel.Nodup) :
    (toggleItem sel x).Nodup := by
  unfold toggleItem
  split
  · exact h.erase x
  · next hx =>
    rw [List.nodup_append]
    refine ⟨h, List.nodup_singleton x, ?_⟩
    intro a ha hax
    simp at hax
    subst hax
    exact hx ha

theorem toggleAt_selected_nodup (t : UIState) (hnd : t.selected.Nodup) (b : Bool) :
    ((toggleAt t b).selected).Nodup := by
  unfold toggleAt
  split
  · exact toggleItem_nodup _ _ hnd
  · exact hnd

theorem step_selected_nodup (t : UIState) (hnd : t.selected.Nodup) (c : Cmd) :
    ((step t c).1).selected.Nodup := by
  by_cases ht : t.active = true
  · have hs : step t c = stepActive t c := by simp [step, ht]
    rw [hs]
    cases c with
    | escape => exact hnd
    | moveUp => simp only [stepActive]; split <;> exact hnd
    | moveDown => simp only [stepActive]; split <;> exact hnd
    | pageUp => simp only [stepActive]; split <;> exact hnd
    | pageDown => simp only [stepActive]; split <;> exact hnd
    | moveHome => simp only [stepActive]; split <;> exact hnd
    | moveEnd => simp only [stepActive]; split <;> exact hnd
    | tabKey => exact toggleAt_selected_nodup t hnd true
    | ctrlSpace => exact toggleAt_selected_nodup t hnd false
    | shiftEnter => exact toggleAt_selected_nodup t hnd true
    | enter =>
      simp only [stepActive, onActivate]
      repeat' split
      all_goals exact hnd
    | edit q => exact hnd
    | timerFire =>
      simp only [stepActive]
      show (flushPending t).selected.Nodup
      unfold flushPending
      split <;> exact hnd
  · have hf : t.active = false := by simpa using ht
    rw [step_inactive t hf c]
    exact hnd

/-- C10: `_selected_items` is a JS `Set` of line values: toggling at a
cursor whose line text is already a member removes that text (so equal
duplicate lines collide), the set stays duplicate-free under every event,
and therefore a committed `ItemSelected` payload never repeats a line. -/
theorem c10_valueKeyed (s : UIState) (ha : s.active = true)
    (hnd : s.selected.Nodup) (hcur : s.cursor < s.visible.length)
    (hmem : s.visible.getD s.cursor "" ∈ s.selected) :
    ((step s Cmd.ctrlSpace).1).selected
        = s.selected.erase (s.visible.getD s.cursor "")
    ∧ s.visible.getD s.cursor "" ∉ ((step s Cmd.ctrlSpace).1).selected
    ∧ ((step s Cmd.tabKey).1).selected
        = s.selected.erase (s.visible.getD s.cursor "")
    ∧ (∀ t : UIState, t.selected.Nodup → ∀ c, ((step t c).1).selected.Nodup)
    ∧ (∀ t : UIState, t.selected.Nodup → ∀ pay,
        (step t Cmd.enter).2 = [Emission.itemSelected pay] → pay.Nodup) := by
  have h0 : 0 < s.visible.length := Nat.lt_of_le_of_lt (Nat.zero_le _) hcur
  have htog : ∀ b : Bool, ((toggleAt s b).selected)
      = s.selected.erase (s.visible.getD s.cursor "") := by
    intro b
    unfold toggleAt
    rw [if_pos ⟨h0, hcur⟩]
    show toggleItem s.selected (s.visible.getD s.cursor "") = _
    unfold toggleItem
    rw [if_pos hmem]
  have hsel : ((step s Cmd.ctrlSpace).1).selected
      = s.selected.erase (s.visible.getD s.cursor "") := by
    have : (step s Cmd.ctrlSpace).1 = toggleAt s false := by
      simp [step, ha, stepActive]
    rw [this, htog]
  refine ⟨hsel, ?_, ?_, fun t hnd' c => step_selected_nodup t hnd' c, ?_⟩
  · rw [hsel]
    intro hIn
    rcases (List.Nodup.mem_erase_iff hnd).mp hIn with ⟨hne, _⟩
    exact hne rfl
  · have : (step s Cmd.tabKey).1 = toggleAt s true := by
      simp [step, ha, stepActive]
    rw [this, htog]
  · intro t hnd' pay hpay
    by_cases ht : t.active = true
    · rw [step_enter_eq t ht] at hpay
      by_cases hts : t.selected = []
      · by_cases htv : t.visible = []
        · rw [onActivate_of_empty t hts htv] at hpay
          simp at hpay
        · by_cases htc : t.cursor < t.visible.length
          · rw [onActivate_of_highlight t hts htc] at hpay
            simp at hpay
            rw [← hpay]
            exact List.nodup_singleton _
          · have : onActivate t = (t, []) := by
              have h1 : ¬ 0 < t.selected.length := by simp [hts]
              have h2 : ¬ (0 < t.visible.length ∧ t.cursor < t.visible.length) := by
                intro hk
                exact htc hk.2
              simp [onActivate, h1, h2]
            rw [this] at hpay
            simp at hpay
      · rw [onActivate_of_selected t hts] at hpay
        simp at hpay
        rw [← hpay]
        exact hnd'
    · have hf : t.active = false := by simpa using ht
      rw [step_inactive t hf Cmd.enter] at hpay
      simp at hpay

/-- The state used to witness C10: "x" is already toggled and the cursor
is on the first of two duplicate "x" lines. -/
def c10State : UIState :=
  { items := ["x", "x", "y"], visible := ["x", "x", "y"], cursor := 0,
    selected := ["x"], pendingFilter := false, scrollStart := 0,
    query := "", active := true }

/-- C10 (witness): Ctrl+Space on a line whose text is already selected
removes that text from the selection set. -/
theorem c10_valueKeyed_witness :
    ((step c10State Cmd.ctrlSpace).1).selected
      = c10State.selected.erase (c10State.visible.getD c10State.cursor "") :=
  (c10_valueKeyed c10State rfl (by decide) (by decide) (by decide)).1

/-! ## C8: the viewport maintenance invariant -/

/-- A legal scroll start for a match list of length `len`: non-negative,
with `start + pageSize ≤ len` when at least a page of matches exists and
`start = 0` when the matches fit on one page. -/
abbrev validStart (len t : Int) : Prop :=
  0 ≤ t ∧ (itemsPerPage ≤ len → t + itemsPerPage ≤ len)
    ∧ (len < itemsPerPage → t = 0)

/-- The cursor sits inside the buffered window of a scroll start. -/
abbrev inWindow (idx t : Int) : Prop :=
  t + scrollBuffer ≤ idx ∧ idx < t + itemsPerPage - scrollBuffer

/-- C8: one call to `_updateScrollWindow` on a state satisfying the
invariant re-establishes it: the new start is a legal start, the cursor
lies in the buffered window whenever some legal start could achieve that,
and among the legal window-achieving starts the chosen one moves the least
distance from the previous start. -/
theorem c8_viewport (len idx start : Int) (hi0 : 0 ≤ idx) (hil : idx < len)
    (hv : validStart len start) :
    validStart len (updateScrollWindow len idx start)
    ∧ ((∃ u, validStart len u ∧ inWindow idx u) →
        inWindow idx (updateScrollWindow len idx start))
    ∧ (∀ u, validStart len u → inWindow idx u →
        (updateScrollWindow len idx start - start).natAbs ≤ (u - start).natAbs) := by
  have hsb : scrollBuffer = 5 := rfl
  have hpp : itemsPerPage = 20 := rfl
  obtain ⟨hv0, hvfit, hvshort⟩ := hv
  rw [hpp] at hvfit hvshort
  have hlen : ¬ len = 0 := by omega
  unfold updateScrollWindow
  rw [if_neg hlen]
  simp only [validStart, inWindow, hsb, hpp]
  split
  · next h1 =>
    refine ⟨⟨?_, ?_, ?_⟩, ?_, ?_⟩
    · omega
    · omega
    · omega
    · rintro ⟨u, ⟨hu0, hufit, hushort⟩, huw1, huw2⟩
      constructor <;> omega
    · rintro u ⟨hu0, hufit, hushort⟩ ⟨huw1, huw2⟩
      omega
  · next h1 =>
    split
    · next h2 =>
      refine ⟨⟨?_, ?_, ?_⟩, ?_, ?_⟩
      · omega
      · omega
      · omega
      · rintro ⟨u, ⟨hu0, hufit, hushort⟩, huw1, huw2⟩
        constructor <;> omega
      · rintro u ⟨hu0, hufit, hushort⟩ ⟨huw1, huw2⟩
        omega
    · next h2 =>
      refine ⟨⟨?_, ?_, ?_⟩, ?_, ?_⟩
      · omega
      · omega
      · omega
      · intro _
        constructor <;> omega
      · rintro u ⟨hu0, hufit, hushort⟩ ⟨huw1, huw2⟩
        omega

/-- C8 (witness): with 100 matches, cursor 50 and start 40 the invariant
holds and the cursor stays in the buffered window (start 40 itself is a
legal window-achieving start). -/
theorem c8_viewport_witness :
    validStart 100 (updateScrollWindow 100 50 40)
    ∧ inWindow 50 (updateScrollWindow 100 50 40) :=
  ⟨(c8_viewport 100 50 40 (by decide) (by decide) (by decide)).1,
    (c8_viewport 100 50 40 (by decide) (by decide) (by decide)).2.1
      ⟨40, by decide, by decide⟩⟩

/-! ## C4: debounce transparency -/

theorem step_edit (s : UIState) (q : String) (ha : s.active = true) :
    step s (Cmd.edit q) = ({ s with query := q, pendingFilter := true }, []) := by
  simp [step, ha, stepActive]

theorem stepImm_edit (s : UIState) (q : String) (ha : s.active = true) :
    stepImm s (Cmd.edit q) = (updateResults { s with query := q, cursor := 0 }, []) := by
  simp [stepImm, ha]

theorem step_fire (s : UIState) (ha : s.active = true) :
    step s Cmd.timerFire = (flushPending s, []) := by
  simp [step, ha, stepActive]

/-- Flushing after a debounced edit reaches the same state as running the
edit immediately on the flushed state. -/
theorem flush_edit (s : UIState) (ha : s.active = true) (q : String) :
    flushPending ((step s (Cmd.edit q)).1)
      = (stepImm (flushPending s) (Cmd.edit q)).1 := by
  rw [step_edit s q ha]
  rw [stepImm_edit _ q (by rw [flushPending_active]; exact ha)]
  have hA : flushPending ({ s with query := q, pendingFilter := true } : UIState)
      = updateResults { s with query := q, cursor := 0, pendingFilter := false } := by
    unfold flushPending
    rfl
  rw [hA]
  apply UIState.ext <;>
    simp [updateResults, flushPending_items, flushPending_selected,
      flushPending_pendingFilter, flushPending_active, updateScrollWindow_zero]

theorem runSeq_append (f : UIState → Cmd → UIState × List Emission)
    (s : UIState) (as bs : List Cmd) :
    runSeq f s (as ++ bs) = runSeq f s as ++ runSeq f (execSeq f s as) bs := by
  induction as generalizing s with
  | nil => simp [runSeq, execSeq]
  | cons a as ih =>
    simp only [List.cons_append, runSeq, List.append_eq]
    rw [ih]
    simp [execSeq, List.append_assoc]

/-- Simulation between the debounced machine and the immediate machine
over a burst of edits: flushing the debounced state lands exactly on the
immediate state, both runs stay active, and neither emits anything. -/
theorem edits_sim (qs : List String) : ∀ s : UIState, s.active = true →
    (execSeq step s (qs.map Cmd.edit)).active = true
    ∧ flushPending (execSeq step s (qs.map Cmd.edit))
        = execSeq stepImm (flushPending s) (qs.map Cmd.edit)
    ∧ runSeq step s (qs.map Cmd.edit) = []
    ∧ runSeq stepImm (flushPending s) (qs.map Cmd.edit) = [] := by
  induction qs with
  | nil =>
    intro s ha
    exact ⟨ha, rfl, rfl, rfl⟩
  | cons q qs ih =>
    intro s ha
    have hD := step_edit s q ha
    have haD : ((step s (Cmd.edit q)).1).active = true := by rw [hD]; exact ha
    obtain ⟨ih1, ih2, ih3, ih4⟩ := ih ((step s (Cmd.edit q)).1) haD
    have haI : (flushPending s).active = true := by rw [flushPending_active]; exact ha
    have hI := stepImm_edit (flushPending s) q haI
    have hkey : flushPending ((step s (Cmd.edit q)).1)
        = (stepImm (flushPending s) (Cmd.edit q)).1 := flush_edit s ha q
    have hexecD : execSeq step s ((q :: qs).map Cmd.edit)
        = execSeq step ((step s (Cmd.edit q)).1) (qs.map Cmd.edit) := by
      simp [execSeq]
    have hexecI : execSeq stepImm (flushPending s) ((q :: qs).map Cmd.edit)
        = execSeq stepImm ((stepImm (flushPending s) (Cmd.edit q)).1) (qs.map Cmd.edit) := by
      simp [execSeq]
    refine ⟨?_, ?_, ?_, ?_⟩
    · rw [hexecD]
      exact ih1
    · rw [hexecD, hexecI, ← hkey]
      exact ih2
    · simp only [List.map_cons, runSeq]
      rw [ih3, hD]
      rfl
    · simp only [List.map_cons, runSeq]
      rw [← hkey, ih4, hI]
      rfl

/-- The state in which the debounce counterexample and witness run: just
after `show(["apple", "banana"], ...)`. -/
def c4State : UIState := showUI ["apple", "banana"] initState

/-- C4 (counterexample): type "ban" and press Enter before the 300 ms
debounce fires — the debounced machine commits "apple" from the stale
MatchList, while immediate recomputation on each edit would commit
"banana".  The pending debounce does not block the commit, but the commit
is served stale results, so the final outcome differs. -/
theorem c4_counterexample :
    runSeq step c4State [Cmd.edit "ban", Cmd.enter]
      = [Emission.itemSelected ["apple"]]
    ∧ runSeq stepImm c4State [Cmd.edit "ban", Cmd.enter]
      = [Emission.itemSelected ["banana"]]
    ∧ runSeq step c4State [Cmd.edit "ban", Cmd.enter]
      ≠ runSeq stepImm c4State [Cmd.edit "ban", Cmd.enter] := by decide

/-- C4 (amended): a Commit or Cancel is never blocked by a pending
debounce — it is acted on immediately — but against the MatchList of the
last completed recomputation.  If the debounce timer has fired after the
last edit (the quiescent moment) before the Commit or Cancel, the outcome
equals that of immediate per-edit recomputation; and a Cancel terminates
the run with exactly one `Cancelled` whether or not a recomputation is
still pending. -/
theorem c4_debounce (s : UIState) (ha : s.active = true)
    (hp : s.pendingFilter = false) (qs : List String) :
    (∀ term : Cmd, term = Cmd.enter ∨ term = Cmd.escape →
      runSeq step s (qs.map Cmd.edit ++ [Cmd.timerFire, term])
        = runSeq stepImm s (qs.map Cmd.edit ++ [term]))
    ∧ runSeq step s (qs.map Cmd.edit ++ [Cmd.escape]) = [Emission.cancelled] := by
  obtain ⟨h1, h2, h3, h4⟩ := edits_sim qs s ha
  have hfs : flushPending s = s := flushPending_of_not_pending s hp
  rw [hfs] at h2 h4
  constructor
  · intro term hterm
    rw [runSeq_append, h3, runSeq_append, h4]
    have hfire : step (execSeq step s (qs.map Cmd.edit)) Cmd.timerFire
        = (flushPending (execSeq step s (qs.map Cmd.edit)), []) :=
      step_fire _ h1
    simp only [runSeq, hfire]
    rw [h2]
    rcases hterm with h | h <;> subst h <;> simp [stepImm]
  · rw [runSeq_append, h3]
    have hesc : step (execSeq step s (qs.map Cmd.edit)) Cmd.escape
        = (hideUI (execSeq step s (qs.map Cmd.edit)), [Emission.cancelled]) := by
      simp [step, h1, stepActive]
    simp only [runSeq, hesc]
    rfl

/-- C4 (witness): with the timer fired between the edit and the commit,
the debounced run and the immediate run emit the same selection. -/
theorem c4_debounce_witness :
    runSeq step c4State [Cmd.edit "ban", Cmd.timerFire, Cmd.enter]
      = runSeq stepImm c4State [Cmd.edit "ban", Cmd.enter] :=
  (c4_debounce c4State rfl (by decide) ["ban"]).1 Cmd.enter (Or.inl rfl)

end Dmenu
